import Mathlib

/-!
Verification development for the support-email enrichment pipeline
(`src/code.py`, class `EmailAssistant`).

Strings from the Python code are embedded as `List Char`; Python's
`str.lower()` is `List.map Char.toLower`, and Python's substring test
`keyword in text` is list-infix containment (`<:+:`), decided by the
`List.decidableInfix` instance.
-/

namespace EmailPipeline

/-- Python `keyword in text`: substring containment of the keyword's
characters in the text. -/
def kwMatch (kw : String) (text : List Char) : Bool :=
  decide (kw.data <:+: text)

/-- Python `any(keyword in text for keyword in kws)`. -/
def anyKw (kws : List String) (text : List Char) : Bool :=
  kws.any (fun kw => kwMatch kw text)

/-- `(subject + ' ' + body).lower()` — the normalized text both
classifiers operate on (src/code.py lines 37 and 55). -/
def normalizedText (subject body : List Char) : List Char :=
  ((subject ++ [' ']) ++ body).map Char.toLower

/-- The three priority tiers the classifier can return; in the Python
code they are the strings named by `priorityName` below. -/
inductive Priority where
  | High
  | Medium
  | Low
deriving DecidableEq

/-- The Python string for each tier (src/code.py lines 39, 41, 42). -/
def priorityName : Priority → String
  | Priority.High => "High"
  | Priority.Medium => "Medium"
  | Priority.Low => "Low"

/-- src/code.py line 34. -/
def high_priority_keywords : List String :=
  ["urgent", "critical", "immediate", "blocked", "downtime", "error"]

/-- src/code.py line 35. -/
def medium_priority_keywords : List String :=
  ["help", "support", "issue", "problem", "question", "query"]

/-- The body of `_get_priority` after the text normalization
(src/code.py lines 38-42). -/
def priorityOfText (text : List Char) : Priority :=
  if anyKw high_priority_keywords text then Priority.High
  else if anyKw medium_priority_keywords text then Priority.Medium
  else Priority.Low

/-- `EmailAssistant._get_priority` (src/code.py lines 23-42). -/
def get_priority (subject body : List Char) : Priority :=
  priorityOfText (normalizedText subject body)

/-- The five categories of `_categorize_email`; in the Python code they
are the strings named by `categoryName` below. -/
inductive Category where
  | LoginAccount
  | BillingPricing
  | Integration
  | SystemDowntime
  | GeneralInquiry
deriving DecidableEq

/-- The Python string for each category (src/code.py lines 57-64). -/
def categoryName : Category → String
  | Category.LoginAccount => "Login/Account"
  | Category.BillingPricing => "Billing/Pricing"
  | Category.Integration => "Integration"
  | Category.SystemDowntime => "System Downtime"
  | Category.GeneralInquiry => "General Inquiry"

/-- Keywords tested on src/code.py line 56. -/
def loginKeywords : List String := ["login", "access", "password", "account"]

/-- Keywords tested on src/code.py line 58. -/
def billingKeywords : List String := ["billing", "pricing", "subscription", "refund"]

/-- Keywords tested on src/code.py line 60. -/
def integrationKeywords : List String := ["api", "integration"]

/-- Keywords tested on src/code.py line 62. -/
def downtimeKeywords : List String := ["downtime", "servers"]

/-- The body of `_categorize_email` after the text normalization
(src/code.py lines 56-64): each Python `or`-chain of `in` tests is the
`anyKw` of the corresponding keyword list, in the source's order. -/
def categoryOfText (text : List Char) : Category :=
  if anyKw loginKeywords text then Category.LoginAccount
  else if anyKw billingKeywords text then Category.BillingPricing
  else if anyKw integrationKeywords text then Category.Integration
  else if anyKw downtimeKeywords text then Category.SystemDowntime
  else Category.GeneralInquiry

/-- `EmailAssistant._categorize_email` (src/code.py lines 44-64). -/
def categorize_email (subject body : List Char) : Category :=
  categoryOfText (normalizedText subject body)

/-- C1: for every (subject, body), `_get_priority` returns exactly one of
High, Medium, Low; it returns High iff the normalized text contains a
high-priority keyword (the High check precedes the Medium check), Medium
iff it contains no high-priority keyword but some medium-priority
keyword, and Low iff it contains neither. -/
theorem get_priority_spec (s b : List Char) :
    (get_priority s b = Priority.High ∨ get_priority s b = Priority.Medium ∨
      get_priority s b = Priority.Low) ∧
    (get_priority s b = Priority.High ↔
      anyKw high_priority_keywords (normalizedText s b) = true) ∧
    (get_priority s b = Priority.Medium ↔
      (anyKw high_priority_keywords (normalizedText s b) = false ∧
        anyKw medium_priority_keywords (normalizedText s b) = true)) ∧
    (get_priority s b = Priority.Low ↔
      (anyKw high_priority_keywords (normalizedText s b) = false ∧
        anyKw medium_priority_keywords (normalizedText s b) = false)) := by
  unfold get_priority priorityOfText
  rcases h1 : anyKw high_priority_keywords (normalizedText s b) <;>
    rcases h2 : anyKw medium_priority_keywords (normalizedText s b) <;>
    simp [h1, h2]

/-- C2: `_categorize_email` checks the four keyword sets in the fixed
order Login/Account, Billing/Pricing, Integration, System Downtime and
returns the first set with a member occurring in the normalized text;
it returns General Inquiry iff no member of any of the four sets occurs. -/
theorem categorize_email_spec (s b : List Char) :
    (categorize_email s b = Category.LoginAccount ↔
      anyKw loginKeywords (normalizedText s b) = true) ∧
    (categorize_email s b = Category.BillingPricing ↔
      (anyKw loginKeywords (normalizedText s b) = false ∧
        anyKw billingKeywords (normalizedText s b) = true)) ∧
    (categorize_email s b = Category.Integration ↔
      (anyKw loginKeywords (normalizedText s b) = false ∧
        anyKw billingKeywords (normalizedText s b) = false ∧
        anyKw integrationKeywords (normalizedText s b) = true)) ∧
    (categorize_email s b = Category.SystemDowntime ↔
      (anyKw loginKeywords (normalizedText s b) = false ∧
        anyKw billingKeywords (normalizedText s b) = false ∧
        anyKw integrationKeywords (normalizedText s b) = false ∧
        anyKw downtimeKeywords (normalizedText s b) = true)) ∧
    (categorize_email s b = Category.GeneralInquiry ↔
      (anyKw loginKeywords (normalizedText s b) = false ∧
        anyKw billingKeywords (normalizedText s b) = false ∧
        anyKw integrationKeywords (normalizedText s b) = false ∧
        anyKw downtimeKeywords (normalizedText s b) = false)) := by
  unfold categorize_email categoryOfText
  rcases h1 : anyKw loginKeywords (normalizedText s b) <;>
    rcases h2 : anyKw billingKeywords (normalizedText s b) <;>
    rcases h3 : anyKw integrationKeywords (normalizedText s b) <;>
    rcases h4 : anyKw downtimeKeywords (normalizedText s b) <;>
    simp [h1, h2, h3, h4]

/-- The normalized text is determined by the lowercase images of subject
and body. -/
theorem normalizedText_eq_lower (s b : List Char) :
    normalizedText s b =
      (s.map Char.toLower ++ [Char.toLower ' ']) ++ b.map Char.toLower := by
  simp [normalizedText]

/-- Empty subject used in the substring-matching example. -/
def emptySubject : List Char := []

/-- Body used in the substring-matching example: contains the medium
keyword "support" as a substring of the word "supporter". -/
def supporterBody : List Char := "supporter".data

/-- C7: both classifiers depend only on the lowercase normalized text,
so changing the case of characters in subject or body changes neither
result; and keyword containment is substring match, not word match:
text containing "supporter" is classified Medium via the substring
"support". -/
theorem classifiers_case_insensitive (s b s2 b2 : List Char)
    (hs : s.map Char.toLower = s2.map Char.toLower)
    (hb : b.map Char.toLower = b2.map Char.toLower) :
    (get_priority s b = get_priority s2 b2 ∧
      categorize_email s b = categorize_email s2 b2) ∧
    get_priority emptySubject supporterBody = Priority.Medium := by
  have h : normalizedText s b = normalizedText s2 b2 := by
    rw [normalizedText_eq_lower, normalizedText_eq_lower, hs, hb]
  exact ⟨⟨by rw [get_priority, get_priority, h],
          by rw [categorize_email, categorize_email, h]⟩, by decide⟩

def caseSubj1 : List Char := "URGENT Help".data

def caseSubj2 : List Char := "urgent help".data

def caseBody1 : List Char := "My Account".data

def caseBody2 : List Char := "my ACCOUNT".data

/-- Witness for C7 at concrete case-varied inputs. -/
theorem classifiers_case_insensitive_witness :
    (get_priority caseSubj1 caseBody1 = get_priority caseSubj2 caseBody2 ∧
      categorize_email caseSubj1 caseBody1 = categorize_email caseSubj2 caseBody2) ∧
    get_priority emptySubject supporterBody = Priority.Medium :=
  classifiers_case_insensitive caseSubj1 caseBody1 caseSubj2 caseBody2
    (by decide) (by decide)

/-- Substring containment in a text is preserved by appending to it. -/
theorem kwMatch_append (kw : String) (t e : List Char)
    (h : kwMatch kw t = true) : kwMatch kw (t ++ e) = true := by
  simp only [kwMatch, decide_eq_true_eq] at h ⊢
  obtain ⟨u, v, huv⟩ := h
  exact ⟨u, v ++ e, by rw [← huv]; simp⟩

/-- Keyword-set containment in a text is preserved by appending to it. -/
theorem anyKw_append (kws : List String) (t e : List Char)
    (h : anyKw kws t = true) : anyKw kws (t ++ e) = true := by
  simp only [anyKw, List.any_eq_true] at h ⊢
  obtain ⟨kw, hmem, hkw⟩ := h
  exact ⟨kw, hmem, kwMatch_append kw t e hkw⟩

/-- Position of each tier in the ordered categorical
`['High', 'Medium', 'Low']` of src/code.py line 162: the sort key, with
the most urgent tier first. -/
def prioRank : Priority → Nat
  | Priority.High => 0
  | Priority.Medium => 1
  | Priority.Low => 2

/-- Appending to the body only extends the normalized text. -/
theorem normalizedText_body_append (s b t : List Char) :
    normalizedText s (b ++ t) = normalizedText s b ++ t.map Char.toLower := by
  simp [normalizedText]

/-- C10: appending text to the body never lowers the priority tier:
substring containment is preserved by appending, so the extended text
satisfies every keyword test the original text satisfied. -/
theorem get_priority_append_mono (s b t : List Char) :
    prioRank (get_priority s (b ++ t)) ≤ prioRank (get_priority s b) := by
  rw [get_priority, get_priority, normalizedText_body_append]
  unfold priorityOfText
  cases h1 : anyKw high_priority_keywords (normalizedText s b)
  · cases h2 : anyKw medium_priority_keywords (normalizedText s b)
    · simp only [h1, h2, Bool.false_eq_true, if_false]
      rcases h3 : anyKw high_priority_keywords
          (normalizedText s b ++ t.map Char.toLower) <;>
        rcases h4 : anyKw medium_priority_keywords
            (normalizedText s b ++ t.map Char.toLower) <;>
        simp [h3, h4, prioRank]
    · have h2e := anyKw_append _ _ (t.map Char.toLower) h2
      simp only [h1, h2, h2e, Bool.false_eq_true, if_false, if_true]
      rcases h3 : anyKw high_priority_keywords
          (normalizedText s b ++ t.map Char.toLower) <;>
        simp [h3, h2e, prioRank]
  · have h1e := anyKw_append _ _ (t.map Char.toLower) h1
    simp [h1, h1e, prioRank]

/-- One entry of the `parts` array in the provider's JSON reply. -/
structure GenPart where
  text : String
deriving DecidableEq

/-- The `content` object of a candidate in the provider's JSON reply. -/
structure GenContent where
  parts : List GenPart
deriving DecidableEq

/-- One entry of the `candidates` array in the provider's JSON reply. -/
structure GenCandidate where
  content : GenContent
deriving DecidableEq

/-- The decoded JSON reply of a successful provider call. -/
structure GenApiResult where
  candidates : List GenCandidate
deriving DecidableEq

/-- Outcome of the provider call in `_get_ai_response`: either a decoded
JSON reply, or any raised exception (network failure, bad HTTP status
from `raise_for_status`, undecodable JSON). -/
inductive ApiOutcome where
  | ok (result : GenApiResult)
  | failure
deriving DecidableEq

/-- `result['candidates'][0]['content']['parts'][0]['text']`
(src/code.py line 107): `none` models the KeyError/IndexError raised on
a malformed shape, which the enclosing `try` converts to the fallback. -/
def extractFirstText (r : GenApiResult) : Option String :=
  match r.candidates with
  | [] => none
  | c :: _ =>
    match c.content.parts with
    | [] => none
    | p :: _ => some p.text

/-- The fixed fallback reply (src/code.py line 113). -/
def fallbackResponse : String :=
  "Thank you for reaching out. We have received your request and will get back to you shortly."

/-- `EmailAssistant._get_ai_response` (src/code.py lines 66-113), as a
function of the provider-call outcome: every exception inside the `try`
block — the call itself failing or the extraction on line 107 — lands in
the `except` branch and yields the fallback string. -/
def get_ai_response (outcome : ApiOutcome) : String :=
  match outcome with
  | ApiOutcome.failure => fallbackResponse
  | ApiOutcome.ok r =>
    match extractFirstText r with
    | none => fallbackResponse
    | some t => t

/-- A successful provider reply whose single candidate text is empty. -/
def emptyTextResult : GenApiResult :=
  { candidates := [{ content := { parts := [{ text := "" }] }}] }

/-- A provider reply with no candidates: extraction raises. -/
def noCandidatesResult : GenApiResult :=
  { candidates := [] }

/-- C3 counterexample: on a successful provider call whose first
candidate text is the empty string, `_get_ai_response` returns the empty
string, so it does not always return a non-empty string. -/
theorem get_ai_response_empty_candidate :
    get_ai_response (ApiOutcome.ok emptyTextResult) = "" := rfl

/-- C3 (amended): `_get_ai_response` never propagates an error: on a
failed call it returns exactly the fallback string, on a malformed reply
(failed extraction) it returns exactly the fallback string, the fallback
string is non-empty, and every result is either the fallback string or
the first candidate text of a successful reply returned verbatim (so the
result is non-empty whenever that candidate text is). -/
theorem get_ai_response_spec (o : ApiOutcome) (r : GenApiResult)
    (hr : extractFirstText r = none) :
    get_ai_response ApiOutcome.failure = fallbackResponse ∧
    get_ai_response (ApiOutcome.ok r) = fallbackResponse ∧
    fallbackResponse ≠ "" ∧
    (get_ai_response o = fallbackResponse ∨
      ∃ r2, o = ApiOutcome.ok r2 ∧
        extractFirstText r2 = some (get_ai_response o)) := by
  refine ⟨rfl, by simp [get_ai_response, hr], by decide, ?_⟩
  cases o with
  | failure => exact Or.inl rfl
  | ok r2 =>
    cases h : extractFirstText r2 with
    | none => exact Or.inl (by simp [get_ai_response, h])
    | some t => exact Or.inr ⟨r2, rfl, by simp [get_ai_response, h]⟩

/-- Witness for C3 (amended) at a concrete malformed reply. -/
theorem get_ai_response_spec_witness :
    get_ai_response ApiOutcome.failure = fallbackResponse ∧
    get_ai_response (ApiOutcome.ok noCandidatesResult) = fallbackResponse ∧
    fallbackResponse ≠ "" ∧
    (get_ai_response ApiOutcome.failure = fallbackResponse ∨
      ∃ r2, ApiOutcome.failure = ApiOutcome.ok r2 ∧
        extractFirstText r2 = some (get_ai_response ApiOutcome.failure)) :=
  get_ai_response_spec ApiOutcome.failure noCandidatesResult rfl

/-- One row of the input table: the three fields the pipeline reads,
plus any other columns of the CSV, carried through untouched. -/
structure InputRecord where
  sender : List Char
  subject : List Char
  body : List Char
  passthrough : List (String × String)
deriving DecidableEq

/-- A processed row: the original row plus the three columns added by
`process_emails` (src/code.py lines 128-142). -/
structure EnrichedRecord where
  base : InputRecord
  priority : Priority
  category : Category
  response : String
deriving DecidableEq

/-- The external provider, as the map from the request built per record
(prompt and context) to the call's outcome. -/
def Generator : Type := List Char → List Char → ApiOutcome

/-- The f-string prompt of src/code.py line 138:
`Draft a response to the following email from {sender} regarding '{subject}':`. -/
def buildPrompt (r : InputRecord) : List Char :=
  "Draft a response to the following email from ".data ++ r.sender ++
    " regarding '".data ++ r.subject ++ "':".data

/-- The three per-row `df.apply` column assignments of src/code.py
lines 128-142, fused into one row transformer: each assignment computes
its column for a row from that row's own fields only. -/
def enrichRecord (gen : Generator) (r : InputRecord) : EnrichedRecord :=
  { base := r
    priority := get_priority r.subject r.body
    category := categorize_email r.subject r.body
    response := get_ai_response (gen (buildPrompt r) r.body) }

/-- `EmailAssistant.process_emails` (src/code.py lines 116-144). The
Bool is true iff the `No data to process. Exiting.` status message of
line 125 was printed; on an empty table the method returns the table
unchanged, otherwise it adds the three columns row by row. -/
def process_emails (gen : Generator) (records : List InputRecord) :
    List EnrichedRecord × Bool :=
  if records.isEmpty then ([], true)
  else (records.map (enrichRecord gen), false)

/-- C4: on an empty input table `process_emails` returns an empty result
and signals the nothing-to-process condition as a printed status (the
Bool), not an error; the function is total, so no exception is raised. -/
theorem process_emails_empty (gen : Generator) :
    process_emails gen [] = ([], true) := rfl

/-- A provider that always fails, used in concrete witnesses. -/
def alwaysFailGen : Generator := fun _ _ => ApiOutcome.failure

def sampleRecord1 : InputRecord :=
  { sender := "a@x.com".data
    subject := "Urgent: server downtime".data
    body := "our servers are down".data
    passthrough := [] }

def sampleRecord2 : InputRecord :=
  { sender := "b@x.com".data
    subject := "hello".data
    body := "just checking in".data
    passthrough := [("date", "2025-08-19")] }

/-- On a non-empty table, `process_emails` is the row-wise map of the
enrichment. -/
theorem process_emails_fst (gen : Generator) (records : List InputRecord)
    (h : records ≠ []) :
    (process_emails gen records).1 = records.map (enrichRecord gen) := by
  cases records with
  | nil => exact absurd rfl h
  | cons r rs => simp [process_emails]

/-- Row `i` of the processed table is the enrichment of row `i` of the
input table. -/
theorem process_emails_get (gen : Generator) (records : List InputRecord)
    (i : Nat) (hi : i < records.length)
    (h2 : i < (process_emails gen records).1.length) :
    (process_emails gen records).1.get ⟨i, h2⟩ =
      enrichRecord gen (records.get ⟨i, hi⟩) := by
  cases records with
  | nil => simp at hi
  | cons r rs =>
    show ((r :: rs).map (enrichRecord gen)).get ⟨i, _⟩ = _
    simp only [List.get_eq_getElem, List.getElem_map]

/-- C5: on a non-empty input table `process_emails` produces exactly one
enriched row per input row — the output is the map of the per-row
enrichment over the input — so the output length equals the input length
and the output order is the input order. -/
theorem process_emails_length_order (gen : Generator)
    (records : List InputRecord) (h : records ≠ []) :
    (process_emails gen records).1.length = records.length ∧
    (process_emails gen records).1 = records.map (enrichRecord gen) := by
  refine ⟨?_, process_emails_fst gen records h⟩
  rw [process_emails_fst gen records h, List.length_map]

/-- Witness for C5 on a concrete two-row table. -/
theorem process_emails_length_order_witness :
    (process_emails alwaysFailGen [sampleRecord1, sampleRecord2]).1.length =
      [sampleRecord1, sampleRecord2].length ∧
    (process_emails alwaysFailGen [sampleRecord1, sampleRecord2]).1 =
      [sampleRecord1, sampleRecord2].map (enrichRecord alwaysFailGen) :=
  process_emails_length_order alwaysFailGen [sampleRecord1, sampleRecord2]
    (List.cons_ne_nil _ _)

/-- C8: a generation failure for one row never aborts or alters the
processing of any other row: whatever the provider does, every row of
the output exists and is the enrichment of the corresponding input row,
its priority and category are the classifier results on that row alone,
and any row whose provider call fails gets exactly the fallback text. -/
theorem process_emails_isolated (gen : Generator) (records : List InputRecord)
    (i : Nat) (hi : i < records.length) :
    ∃ h2 : i < (process_emails gen records).1.length,
      (process_emails gen records).1.get ⟨i, h2⟩ =
        enrichRecord gen (records.get ⟨i, hi⟩) ∧
      ((process_emails gen records).1.get ⟨i, h2⟩).priority =
        get_priority (records.get ⟨i, hi⟩).subject (records.get ⟨i, hi⟩).body ∧
      ((process_emails gen records).1.get ⟨i, h2⟩).category =
        categorize_email (records.get ⟨i, hi⟩).subject (records.get ⟨i, hi⟩).body ∧
      (gen (buildPrompt (records.get ⟨i, hi⟩)) (records.get ⟨i, hi⟩).body =
          ApiOutcome.failure →
        ((process_emails gen records).1.get ⟨i, h2⟩).response =
          fallbackResponse) := by
  have hne : records ≠ [] := by
    intro hnil
    rw [hnil] at hi
    simp at hi
  have h2 : i < (process_emails gen records).1.length := by
    rw [process_emails_fst gen records hne, List.length_map]
    exact hi
  have hget := process_emails_get gen records i hi h2
  refine ⟨h2, hget, ?_, ?_, ?_⟩
  · rw [hget]
    rfl
  · rw [hget]
    rfl
  · intro hfail
    rw [hget]
    show get_ai_response
      (gen (buildPrompt (records.get ⟨i, hi⟩)) (records.get ⟨i, hi⟩).body) =
      fallbackResponse
    rw [hfail]
    rfl

/-- Witness for C8 at row 1 of a concrete two-row table under a provider
that always fails. -/
theorem process_emails_isolated_witness :
    ∃ h2 : 1 < (process_emails alwaysFailGen [sampleRecord1, sampleRecord2]).1.length,
      (process_emails alwaysFailGen [sampleRecord1, sampleRecord2]).1.get ⟨1, h2⟩ =
        enrichRecord alwaysFailGen sampleRecord2 ∧
      ((process_emails alwaysFailGen [sampleRecord1, sampleRecord2]).1.get ⟨1, h2⟩).priority =
        get_priority sampleRecord2.subject sampleRecord2.body ∧
      ((process_emails alwaysFailGen [sampleRecord1, sampleRecord2]).1.get ⟨1, h2⟩).category =
        categorize_email sampleRecord2.subject sampleRecord2.body ∧
      (alwaysFailGen (buildPrompt sampleRecord2) sampleRecord2.body =
          ApiOutcome.failure →
        ((process_emails alwaysFailGen [sampleRecord1, sampleRecord2]).1.get ⟨1, h2⟩).response =
          fallbackResponse) :=
  process_emails_isolated alwaysFailGen [sampleRecord1, sampleRecord2] 1
    (by decide)

/-- C9: enrichment only adds fields: every output row carries the
corresponding input row unchanged — sender, subject, body and all
passthrough fields — and is exactly that row extended with the three
derived fields priority, category and response. -/
theorem process_emails_frame (gen : Generator) (records : List InputRecord)
    (i : Nat) (hi : i < records.length) :
    ∃ h2 : i < (process_emails gen records).1.length,
      ((process_emails gen records).1.get ⟨i, h2⟩).base =
        records.get ⟨i, hi⟩ ∧
      ((process_emails gen records).1.get ⟨i, h2⟩).base.sender =
        (records.get ⟨i, hi⟩).sender ∧
      ((process_emails gen records).1.get ⟨i, h2⟩).base.subject =
        (records.get ⟨i, hi⟩).subject ∧
      ((process_emails gen records).1.get ⟨i, h2⟩).base.body =
        (records.get ⟨i, hi⟩).body ∧
      ((process_emails gen records).1.get ⟨i, h2⟩).base.passthrough =
        (records.get ⟨i, hi⟩).passthrough ∧
      (process_emails gen records).1.get ⟨i, h2⟩ =
        { base := records.get ⟨i, hi⟩
          priority := get_priority (records.get ⟨i, hi⟩).subject
            (records.get ⟨i, hi⟩).body
          category := categorize_email (records.get ⟨i, hi⟩).subject
            (records.get ⟨i, hi⟩).body
          response := get_ai_response
            (gen (buildPrompt (records.get ⟨i, hi⟩))
              (records.get ⟨i, hi⟩).body) } := by
  have hne : records ≠ [] := by
    intro hnil
    rw [hnil] at hi
    simp at hi
  have h2 : i < (process_emails gen records).1.length := by
    rw [process_emails_fst gen records hne, List.length_map]
    exact hi
  have hget := process_emails_get gen records i hi h2
  refine ⟨h2, ?_, ?_, ?_, ?_, ?_, ?_⟩ <;> rw [hget] <;> rfl

/-- Witness for C9 at row 0 of a concrete two-row table. -/
theorem process_emails_frame_witness :
    ∃ h2 : 0 < (process_emails alwaysFailGen [sampleRecord1, sampleRecord2]).1.length,
      ((process_emails alwaysFailGen [sampleRecord1, sampleRecord2]).1.get ⟨0, h2⟩).base =
        sampleRecord1 ∧
      ((process_emails alwaysFailGen [sampleRecord1, sampleRecord2]).1.get ⟨0, h2⟩).base.sender =
        sampleRecord1.sender ∧
      ((process_emails alwaysFailGen [sampleRecord1, sampleRecord2]).1.get ⟨0, h2⟩).base.subject =
        sampleRecord1.subject ∧
      ((process_emails alwaysFailGen [sampleRecord1, sampleRecord2]).1.get ⟨0, h2⟩).base.body =
        sampleRecord1.body ∧
      ((process_emails alwaysFailGen [sampleRecord1, sampleRecord2]).1.get ⟨0, h2⟩).base.passthrough =
        sampleRecord1.passthrough ∧
      (process_emails alwaysFailGen [sampleRecord1, sampleRecord2]).1.get ⟨0, h2⟩ =
        { base := sampleRecord1
          priority := get_priority sampleRecord1.subject sampleRecord1.body
          category := categorize_email sampleRecord1.subject sampleRecord1.body
          response := get_ai_response
            (alwaysFailGen (buildPrompt sampleRecord1) sampleRecord1.body) } :=
  process_emails_frame alwaysFailGen [sampleRecord1, sampleRecord2] 0
    (by decide)

/-- Modelled from the spec: one insertion step of the Reporter sort.
`main` (src/code.py lines 161-164) sorts the processed table with
`sort_values` over the ordered categorical `['High', 'Medium', 'Low']`;
the sorting algorithm itself is pandas library code, absent from this
repository, and the spec prescribes a stable sort by the fixed tier
order, modelled here as stable insertion by `prioRank`: an element is
placed before the first element of equal or larger rank, so earlier
elements stay ahead of equal-rank later ones. -/
def insertByPriority (x : EnrichedRecord) :
    List EnrichedRecord → List EnrichedRecord
  | [] => [x]
  | y :: ys =>
    if prioRank x.priority ≤ prioRank y.priority then x :: y :: ys
    else y :: insertByPriority x ys

/-- Modelled from the spec: the Reporter sort (stable insertion sort by
`prioRank`), see `insertByPriority`. -/
def sortByPriority : List EnrichedRecord → List EnrichedRecord
  | [] => []
  | x :: xs => insertByPriority x (sortByPriority xs)

/-- The subsequence of rows of a given tier, in their original order. -/
def bucket (p : Priority) (l : List EnrichedRecord) : List EnrichedRecord :=
  l.filter (fun e => e.priority == p)

theorem bucket_priority (p : Priority) (l : List EnrichedRecord) :
    ∀ e ∈ bucket p l, e.priority = p := by
  intro e he
  simp only [bucket, List.mem_filter, beq_iff_eq] at he
  exact he.2

theorem bucket_cons_pos (p : Priority) (x : EnrichedRecord)
    (l : List EnrichedRecord) (h : x.priority = p) :
    bucket p (x :: l) = x :: bucket p l := by
  simp [bucket, h]

theorem bucket_cons_neg (p : Priority) (x : EnrichedRecord)
    (l : List EnrichedRecord) (h : x.priority ≠ p) :
    bucket p (x :: l) = bucket p l := by
  simp [bucket, h]

theorem insertByPriority_ge (x : EnrichedRecord)
    (rest : List EnrichedRecord)
    (h : ∀ y ∈ rest, prioRank x.priority ≤ prioRank y.priority) :
    insertByPriority x rest = x :: rest := by
  cases rest with
  | nil => rfl
  | cons y ys =>
    have hy := h y (List.mem_cons_self y ys)
    simp [insertByPriority, hy]

theorem insertByPriority_skip (x : EnrichedRecord)
    (A rest : List EnrichedRecord)
    (hA : ∀ a ∈ A, prioRank a.priority < prioRank x.priority) :
    insertByPriority x (A ++ rest) = A ++ insertByPriority x rest := by
  induction A with
  | nil => rfl
  | cons a A ih =>
    have ha := hA a (List.mem_cons_self a A)
    have hcond : ¬ prioRank x.priority ≤ prioRank a.priority :=
      Nat.not_le.mpr ha
    simp only [List.cons_append, insertByPriority, if_neg hcond]
    exact congrArg (List.cons a)
      (ih (fun a2 ha2 => hA a2 (List.mem_cons_of_mem a ha2)))

/-- C6: the Reporter sort orders rows by the fixed tier order High,
Medium, Low and is stable: the sorted list is exactly the High rows in
their original order, then the Medium rows in their original order,
then the Low rows in their original order. The tier order is not the
lexicographic order of the tier names: Medium ranks before Low although
the string Low is lexicographically smaller than the string Medium. -/
theorem sortByPriority_spec (l : List EnrichedRecord) :
    sortByPriority l =
      bucket Priority.High l ++ bucket Priority.Medium l ++
        bucket Priority.Low l ∧
    prioRank Priority.Medium < prioRank Priority.Low ∧
    priorityName Priority.Low < priorityName Priority.Medium := by
  refine ⟨?_, by decide, by rw [String.lt_iff_toList_lt]; exact List.Lex.rel (by decide)⟩
  induction l with
  | nil => rfl
  | cons x xs ih =>
    have hH := bucket_priority Priority.High xs
    have hM := bucket_priority Priority.Medium xs
    have hL := bucket_priority Priority.Low xs
    show insertByPriority x (sortByPriority xs) = _
    rw [ih]
    cases hxp : x.priority with
    | High =>
      rw [insertByPriority_ge x _ (by intro y hy; rw [hxp]; exact Nat.zero_le _)]
      rw [bucket_cons_pos Priority.High x xs hxp,
        bucket_cons_neg Priority.Medium x xs (by simp [hxp]),
        bucket_cons_neg Priority.Low x xs (by simp [hxp])]
      simp [List.cons_append]
    | Medium =>
      have hskip : ∀ a ∈ bucket Priority.High xs,
          prioRank a.priority < prioRank x.priority := by
        intro a ha
        rw [hH a ha, hxp]
        decide
      have hge : ∀ y ∈ bucket Priority.Medium xs ++ bucket Priority.Low xs,
          prioRank x.priority ≤ prioRank y.priority := by
        intro y hy
        rw [hxp]
        rcases List.mem_append.mp hy with h | h
        · rw [hM y h]
        · rw [hL y h]
          decide
      rw [List.append_assoc,
        insertByPriority_skip x (bucket Priority.High xs)
          (bucket Priority.Medium xs ++ bucket Priority.Low xs) hskip,
        insertByPriority_ge x _ hge]
      rw [bucket_cons_neg Priority.High x xs (by simp [hxp]),
        bucket_cons_pos Priority.Medium x xs hxp,
        bucket_cons_neg Priority.Low x xs (by simp [hxp])]
      simp [List.cons_append, List.append_assoc]
    | Low =>
      have hskipH : ∀ a ∈ bucket Priority.High xs,
          prioRank a.priority < prioRank x.priority := by
        intro a ha
        rw [hH a ha, hxp]
        decide
      have hskipM : ∀ a ∈ bucket Priority.Medium xs,
          prioRank a.priority < prioRank x.priority := by
        intro a ha
        rw [hM a ha, hxp]
        decide
      have hge : ∀ y ∈ bucket Priority.Low xs,
          prioRank x.priority ≤ prioRank y.priority := by
        intro y hy
        rw [hxp, hL y hy]
      rw [List.append_assoc,
        insertByPriority_skip x (bucket Priority.High xs)
          (bucket Priority.Medium xs ++ bucket Priority.Low xs) hskipH,
        insertByPriority_skip x (bucket Priority.Medium xs)
          (bucket Priority.Low xs) hskipM,
        insertByPriority_ge x _ hge]
      rw [bucket_cons_neg Priority.High x xs (by simp [hxp]),
        bucket_cons_neg Priority.Medium x xs (by simp [hxp]),
        bucket_cons_pos Priority.Low x xs hxp]
      simp [List.append_assoc]

end EmailPipeline
